import Mathlib

/-!
# Verification of the magnetic-survey correction pipeline

Shallow embedding of the numerical core of `src/代码.py`:

* `detect_outliers_zscore` — z-score outlier mask (source lines 19–22);
* `weighted_average` — normalized weighted column mean (lines 24–28);
* `correct_main_data` — linear blend toward a reference vector (lines 30–31);
* `MagneticCorrectionGeoApp.process_and_plot` — the orchestrator (lines 217–293),
  modelled as a pure function `process_and_plot` on extracted rows;
* `MagneticCorrectionGeoApp.load_excel` — workbook ingestion with schema
  validation (lines 188–215), modelled as `load_excel` on string grids.

Real numbers in the source are embedded as exact rationals `ℚ`.  The source's
z-score comparison `|x − mean| / std > threshold` (with `std = √variance`)
is embedded in the algebraically equivalent square-free form
`(x − mean)² > threshold² · variance`, which is exactly computable over `ℚ`;
the theorem `detect_outliers_zscore_matches_spec` proves, over `ℝ`, that this
form agrees with the `|x − mean| / √variance > threshold` formulation on every
entry of the data (including numpy's behaviour on zero-variance columns, where
the 0/0 z-score compares as not-exceeding).
-/

/-- A 3-component magnetic vector (X, Y, Z in nT), the row type of the
N×3 matrices handled by the numerical core. -/
structure Vec3 where
  x : ℚ
  y : ℚ
  z : ℚ
deriving DecidableEq

namespace Vec3

instance : Add Vec3 := ⟨fun a b => ⟨a.x + b.x, a.y + b.y, a.z + b.z⟩⟩
instance : Sub Vec3 := ⟨fun a b => ⟨a.x - b.x, a.y - b.y, a.z - b.z⟩⟩
instance : SMul ℚ Vec3 := ⟨fun c a => ⟨c * a.x, c * a.y, c * a.z⟩⟩

@[simp] theorem add_x (a b : Vec3) : (a + b).x = a.x + b.x := rfl
@[simp] theorem add_y (a b : Vec3) : (a + b).y = a.y + b.y := rfl
@[simp] theorem add_z (a b : Vec3) : (a + b).z = a.z + b.z := rfl
@[simp] theorem sub_x (a b : Vec3) : (a - b).x = a.x - b.x := rfl
@[simp] theorem sub_y (a b : Vec3) : (a - b).y = a.y - b.y := rfl
@[simp] theorem sub_z (a b : Vec3) : (a - b).z = a.z - b.z := rfl
@[simp] theorem smul_x (c : ℚ) (a : Vec3) : (c • a).x = c * a.x := rfl
@[simp] theorem smul_y (c : ℚ) (a : Vec3) : (c • a).y = c * a.y := rfl
@[simp] theorem smul_z (c : ℚ) (a : Vec3) : (c • a).z = c * a.z := rfl

theorem ext_iff {a b : Vec3} : a = b ↔ a.x = b.x ∧ a.y = b.y ∧ a.z = b.z := by
  constructor
  · rintro rfl; exact ⟨rfl, rfl, rfl⟩
  · rintro ⟨hx, hy, hz⟩; cases a; cases b; simp_all

theorem ext' {a b : Vec3} (hx : a.x = b.x) (hy : a.y = b.y) (hz : a.z = b.z) :
    a = b := ext_iff.mpr ⟨hx, hy, hz⟩

end Vec3

/-- Arithmetic mean of a list of rationals (`np.mean`); the empty list yields
`0/0 = 0` under `ℚ`'s division convention. -/
def colMean (l : List ℚ) : ℚ := l.sum / l.length

/-- Population variance of a list of rationals (`np.std(...)²`, numpy's default
`ddof = 0`). -/
def colVar (l : List ℚ) : ℚ :=
  ((l.map fun x => (x - colMean l) ^ 2).sum) / l.length

/-- One entry's z-score test `|x − mean| / std > threshold` of source line 20,
written in the square-free form `(x − mean)² > threshold² · variance` so that it
is exactly computable over `ℚ` (`std = √variance` is irrational in general).
`detect_outliers_zscore_matches_spec` proves the agreement with the
division/square-root form over `ℝ`. -/
def zExceeds (x m var t : ℚ) : Bool := decide ((x - m) ^ 2 > t ^ 2 * var)

/-- Source lines 19–22:
`z = np.abs((data - np.mean(data, axis=0)) / np.std(data, axis=0))`;
`outlier_mask = (z > threshold).any(axis=1)`.  Per-column mean and population
standard deviation over all rows; row flagged iff any of its 3 z-scores exceeds
the threshold (the Python default `threshold=3` is passed explicitly by
callers of this model). -/
def detect_outliers_zscore (data : List Vec3) (threshold : ℚ) : List Bool :=
  let mx := colMean (data.map Vec3.x)
  let vx := colVar (data.map Vec3.x)
  let my := colMean (data.map Vec3.y)
  let vy := colVar (data.map Vec3.y)
  let mz := colMean (data.map Vec3.z)
  let vz := colVar (data.map Vec3.z)
  data.map fun v =>
    zExceeds v.x mx vx threshold || zExceeds v.y my vy threshold ||
      zExceeds v.z mz vz threshold

/-- Source lines 24–28: default weights `np.ones(M)`, normalization
`weights / np.sum(weights)`, then `np.average(data, axis=0, weights)`, i.e.
`Σ wᵢ·rowᵢ / Σ wᵢ` with the normalized weights.  The Python default
`weights=None` is passed explicitly as `none` by callers of this model. -/
def weighted_average (data : List Vec3) (weights : Option (List ℚ)) : Vec3 :=
  let ws := weights.getD (List.replicate data.length 1)
  let nws := ws.map fun w => w / ws.sum
  ⟨(List.zipWith (fun w v => w * Vec3.x v) nws data).sum / nws.sum,
   (List.zipWith (fun w v => w * Vec3.y v) nws data).sum / nws.sum,
   (List.zipWith (fun w v => w * Vec3.z v) nws data).sum / nws.sum⟩

/-- Source lines 30–31: `main_vec + factor * (aux_mean - main_vec)`, applied
row-wise.  The Python default `factor=1.0` is passed explicitly by the
orchestrator. -/
def correct_main_data (main_vec : List Vec3) (aux_mean : Vec3) (factor : ℚ) :
    List Vec3 :=
  main_vec.map fun v => v + factor • (aux_mean - v)

/-- The arithmetic column-wise mean of a matrix of rows, as the spec words it
("the arithmetic column-mean"); comparator for `weighted_average` with uniform
weights. -/
def columnMean (data : List Vec3) : Vec3 :=
  ⟨colMean (data.map Vec3.x), colMean (data.map Vec3.y),
   colMean (data.map Vec3.z)⟩

/-! ## The orchestrator (`process_and_plot`, source lines 217–293)

A table row after `table_to_dataframe` coercion: each of the 7 columns holds
either a number or the missing marker NaN (`pd.to_numeric(..., errors='coerce')`
on unparsable cells), modelled as `Option ℚ`. -/

/-- One survey record: longitude, latitude, vertical depth, wellhead elevation,
and the three magnetic components; `none` is a missing (NaN) cell. -/
structure Row where
  lon : Option ℚ
  lat : Option ℚ
  depth : Option ℚ
  elev : Option ℚ
  mx : Option ℚ
  my : Option ℚ
  mz : Option ℚ
deriving DecidableEq

/-- A row's magnetic vector when all 3 components are present
(the rows `main_df[VECTOR_FIELDS].dropna()` keeps). -/
def rowVec (r : Row) : Option Vec3 :=
  match r.mx, r.my, r.mz with
  | some a, some b, some c => some ⟨a, b, c⟩
  | _, _, _ => none

/-- Model of `df[VECTOR_FIELDS].dropna().values` (source lines 228–229): the
vectors of the rows with a complete magnetic vector, in table order. -/
def extractVecs (df : List Row) : List Vec3 := df.filterMap rowVec

/-- A row has a complete magnetic vector. -/
def vecComplete (r : Row) : Bool := r.mx.isSome && r.my.isSome && r.mz.isSome

/-- A row has a complete geo-position (all 4 of longitude, latitude, depth,
elevation present). -/
def geoComplete (r : Row) : Bool :=
  r.lon.isSome && r.lat.isSome && r.depth.isSome && r.elev.isSome

/-- A geo-position 4-tuple (longitude, latitude, vertical depth, wellhead
elevation), used only as a plotting origin. -/
structure Geo4 where
  lon : ℚ
  lat : ℚ
  depth : ℚ
  elev : ℚ
deriving DecidableEq

/-- A row's geo-position when all 4 coordinates are present (the rows
the geo-column `dropna()` keeps). -/
def rowGeo (r : Row) : Option Geo4 :=
  match r.lon, r.lat, r.depth, r.elev with
  | some a, some b, some c, some d => some ⟨a, b, c, d⟩
  | _, _, _, _ => none

/-- Model of `df[["经度(°)", "纬度(°)", "垂向深度(m)", "井口海拔(m)"]].dropna().values`
(source lines 230–231): the geo-positions of the rows with a complete
geo-position, in table order.  Note this `dropna` is independent of the
vector-column `dropna` of `extractVecs`, so the two extracts can have
different lengths. -/
def extractGeos (df : List Row) : List Geo4 := df.filterMap rowGeo

/-- Core of numpy's boolean-mask selection `xs[~mask]`: keep the elements
whose mask entry is `false` (positional). -/
def applyNotMask {α : Type} (xs : List α) (mask : List Bool) : List α :=
  (xs.zip mask).filterMap fun p => if p.2 then none else some p.1

/-- Numpy boolean-mask selection `xs[~mask]` as the partial operation it is:
when the mask length differs from the array length numpy raises
`IndexError: boolean index did not match indexed array` (`none` here);
otherwise it returns the elements at the mask's `false` positions. -/
def selectNotMask? {α : Type} (xs : List α) (mask : List Bool) :
    Option (List α) :=
  if xs.length = mask.length then some (applyNotMask xs mask) else none

/-- The plural-path valid set (source lines 248–253): rows the outlier mask
(threshold 3) leaves unflagged, falling back to the full set when the mask
flags every row. -/
def pluralValid (A : List Vec3) : List Vec3 :=
  let kept := applyNotMask A (detect_outliers_zscore A 3)
  if kept.length = 0 then A else kept

/-- The plural-path aggregate mean (source line 254): uniform-weight
`weighted_average` of the plural-path valid set. -/
def pluralAggregate (A : List Vec3) : Vec3 :=
  weighted_average (pluralValid A) none

/-- Outcome of one `process_and_plot` run.

* `warnIncomplete` — the line 222–225 abort: `[WARN] 数据不完整，无法计算。`,
  label message set, return before any correction or plot update;
* `warnAuxEmpty` — the defensive line 239–242 abort (`[WARN] 辅助数据为空。`),
  unreachable after the first check but present in the source;
* `crashIndexError` — the uncaught `IndexError` numpy raises at source line
  250 (`aux_geo_valid = aux_geo[~outlier_mask]`) when the auxiliary
  geo-complete row count differs from its vector-complete count: the boolean
  mask has the vector extract's length while `aux_geo` has the geo extract's.
  The `try` of lines 227–236 does not cover line 250, so the exception
  escapes `process_and_plot` before `weighted_average`, the mean, the
  correction or any plot update;
* `done calledDetect calledAverage auxValid auxMean mainCorrected` — the run
  completed: `calledDetect` / `calledAverage` record whether
  `detect_outliers_zscore` / `weighted_average` were invoked on this run,
  `auxValid` is the `aux_valid` set plotted, `auxMean` the aggregate auxiliary
  mean, `mainCorrected` the corrected main vectors passed to the plot. -/
inductive ProcessResult where
  | warnIncomplete
  | warnAuxEmpty
  | crashIndexError
  | done (calledDetect calledAverage : Bool) (auxValid : List Vec3)
      (auxMean : Vec3) (mainCorrected : List Vec3)
deriving DecidableEq

/-- The corrected main vectors of a completed run, `none` on an abort. -/
def ProcessResult.corrected : ProcessResult → Option (List Vec3)
  | .done _ _ _ _ c => some c
  | _ => none

/-- Source lines 217–293, the numeric part of
`MagneticCorrectionGeoApp.process_and_plot`: extract the complete-vector rows
of both tables (lines 228–229) and the complete-geo-position rows
(lines 230–231, plot origins only), abort with a WARN if either vector set is
empty (line 222), branch on the auxiliary count.  Singleton (lines 243–246):
the lone row is the mean, no outlier filter, no averaging, no mask indexing.
Plural (lines 247–254): outlier filter (line 248), then
`aux_valid = aux_vec[~outlier_mask]` (line 249, lengths always agree) and
`aux_geo_valid = aux_geo[~outlier_mask]` (line 250) — the latter raises an
uncaught `IndexError` whenever `aux_geo` and the mask differ in length, killing
the run before the fallback and `weighted_average`; otherwise the all-flagged
fallback (lines 251–253) and the uniform weighted average (line 254) run, and
the main vectors are corrected with blend factor 1 (line 260).
`main_geo` (line 230) and the selected `aux_geo_valid` rows feed only the
quiver plot (lines 267–291) and are not part of the numeric result. -/
def process_and_plot (main aux : List Row) : ProcessResult :=
  let main_vec := extractVecs main
  let aux_vec := extractVecs aux
  if main_vec.length = 0 ∨ aux_vec.length = 0 then .warnIncomplete
  else
    let _main_geo := extractGeos main
    let aux_geo := extractGeos aux
    if aux_vec.length = 0 then .warnAuxEmpty
    else if aux_vec.length = 1 then
      .done false false aux_vec (aux_vec.headD ⟨0, 0, 0⟩)
        (correct_main_data main_vec (aux_vec.headD ⟨0, 0, 0⟩) 1)
    else
      let mask := detect_outliers_zscore aux_vec 3
      match selectNotMask? aux_geo mask with
      | none => .crashIndexError
      | some _ =>
        .done true true (pluralValid aux_vec) (pluralAggregate aux_vec)
          (correct_main_data main_vec (pluralAggregate aux_vec) 1)

/-! ## Workbook ingestion (`load_excel`, source lines 188–215) -/

/-- The 7 required column labels (source lines 13–16). -/
def FIELDS : List String :=
  ["经度(°)", "纬度(°)", "垂向深度(m)", "井口海拔(m)",
   "X轴分量(nT)", "Y轴分量(nT)", "Z轴分量(nT)"]

/-- An untyped grid as read from one workbook sheet or held by one
`QTableWidget`: labelled columns over textual cells.  No numeric coercion is
applied at this stage (`pd.to_numeric` runs only in `table_to_dataframe`,
during a pipeline run). -/
structure Table where
  headers : List String
  rows : List (List String)
deriving DecidableEq

/-- The two in-memory tables of the application window. -/
structure AppState where
  table_main : Table
  table_aux : Table
deriving DecidableEq

/-- Model of `df[FIELDS]` followed by `dataframe_to_table` (source lines
203–206): select the 7 required columns in canonical order. -/
def selectColumns (t : Table) : Table :=
  { headers := FIELDS,
    rows := t.rows.map fun row =>
      FIELDS.map fun c => row.getD (t.headers.indexOf c) "" }

/-- Outcome of `load_excel`: either a schema error naming the sheet and the
missing column (source lines 197–202: `[ERROR] {name}缺少列: {col}` and
`raise ValueError`), or a successful load. -/
inductive LoadResult where
  | schemaError (sheet : String) (column : String)
  | ok
deriving DecidableEq

/-- Source lines 193–206 of `MagneticCorrectionGeoApp.load_excel`: the first
sheet is the main dataset, the second (when present) the auxiliary, else the
auxiliary is the main sheet again; every one of the 7 required columns must be
present in the main sheet then in the auxiliary sheet (checked in that order,
first missing column reported) before either in-memory table is replaced.  On
a schema error the prior state is returned untouched. -/
def load_excel (st : AppState) (mainSheet : Table) (auxSheet? : Option Table) :
    LoadResult × AppState :=
  let auxSheet := auxSheet?.getD mainSheet
  match FIELDS.find? (fun c => decide (c ∉ mainSheet.headers)) with
  | some c => (.schemaError "主数据" c, st)
  | none =>
    match FIELDS.find? (fun c => decide (c ∉ auxSheet.headers)) with
    | some c => (.schemaError "辅助数据" c, st)
    | none => (.ok, ⟨selectColumns mainSheet, selectColumns auxSheet⟩)

/-! ## Basic lemmas about the statistics primitives -/

theorem zip_map_self {α β : Type} (l : List α) (f : α → β) :
    ∀ v b, (v, b) ∈ l.zip (l.map f) → v ∈ l ∧ b = f v := by
  induction l with
  | nil => intro v b h; simp [List.zip] at h
  | cons a tl ih =>
    intro v b h
    rw [List.map_cons, List.zip_cons_cons, List.mem_cons] at h
    rcases h with h | h
    · rw [Prod.mk.injEq] at h
      obtain ⟨rfl, rfl⟩ := h
      exact ⟨List.mem_cons_self _ _, rfl⟩
    · obtain ⟨hv, hb⟩ := ih v b h
      exact ⟨List.mem_cons_of_mem a hv, hb⟩

theorem colVar_nonneg (l : List ℚ) : 0 ≤ colVar l := by
  unfold colVar
  apply div_nonneg
  · exact List.sum_nonneg (by
      intro x hx
      obtain ⟨y, _, rfl⟩ := List.mem_map.mp hx
      positivity)
  · positivity

theorem eq_colMean_of_colVar_eq_zero {l : List ℚ} {x : ℚ} (hx : x ∈ l)
    (h : colVar l = 0) : x = colMean l := by
  have hlen : (l.length : ℚ) ≠ 0 := by
    have hne : l ≠ [] := List.ne_nil_of_mem hx
    have : l.length ≠ 0 := fun h0 => hne (List.length_eq_zero.mp h0)
    exact_mod_cast this
  have hsum : ((l.map fun y => (y - colMean l) ^ 2).sum) = 0 := by
    unfold colVar at h
    rcases div_eq_zero_iff.mp h with h0 | h0
    · exact h0
    · exact absurd h0 hlen
  have hmem : (x - colMean l) ^ 2 ∈ l.map fun y => (y - colMean l) ^ 2 :=
    List.mem_map_of_mem _ hx
  have hz : (x - colMean l) ^ 2 = 0 :=
    List.all_zero_of_le_zero_le_of_sum_eq_zero
      (fun y hy => by
        obtain ⟨w, _, rfl⟩ := List.mem_map.mp hy
        positivity)
      hsum hmem
  have := pow_eq_zero_iff (n := 2) (by norm_num) |>.mp hz
  linarith [sub_eq_zero.mp this]

theorem real_z_iff (x m var t : ℝ) (hvar : 0 ≤ var) (ht : 0 ≤ t)
    (hzero : var = 0 → x = m) :
    t ^ 2 * var < (x - m) ^ 2 ↔ t < |x - m| / Real.sqrt var := by
  rcases eq_or_lt_of_le hvar with h0 | hpos
  · have hx : x = m := hzero h0.symm
    subst hx
    rw [← h0]
    simp only [sub_self, abs_zero, zero_div]
    constructor
    · intro h; nlinarith
    · intro h; linarith
  · have hs : 0 < Real.sqrt var := Real.sqrt_pos.mpr hpos
    rw [lt_div_iff₀ hs]
    constructor
    · intro h
      nlinarith [Real.sq_sqrt hvar, sq_abs (x - m), abs_nonneg (x - m),
        mul_nonneg ht hs.le]
    · intro h
      nlinarith [Real.sq_sqrt hvar, sq_abs (x - m), abs_nonneg (x - m),
        mul_nonneg ht hs.le]

theorem zExceeds_iff_real (x m var t : ℚ) (hvar : 0 ≤ var) (ht : 0 ≤ t)
    (hzero : var = 0 → x = m) :
    (zExceeds x m var t = true ↔
      (t : ℝ) < |(x : ℝ) - (m : ℝ)| / Real.sqrt (var : ℝ)) := by
  unfold zExceeds
  rw [decide_eq_true_eq, gt_iff_lt]
  have hcast : (t ^ 2 * var < (x - m) ^ 2) ↔
      ((t : ℝ) ^ 2 * (var : ℝ) < ((x : ℝ) - (m : ℝ)) ^ 2) := by
    rw [← Rat.cast_lt (K := ℝ)]
    push_cast
    rfl
  rw [hcast]
  exact real_z_iff _ _ _ _ (by exact_mod_cast hvar) (by exact_mod_cast ht)
    (fun h => by
      have : var = 0 := by exact_mod_cast h
      exact_mod_cast congrArg (Rat.cast : ℚ → ℝ) (hzero this))

/-- Claim C1: for every N×3 matrix and every threshold `t ≥ 0` (the default is
3), `detect_outliers_zscore` returns a boolean mask of length N, and a row is
flagged iff at least one of its 3 z-scores `|x − mean| / std` — over `ℝ`, with
the per-column mean and population standard deviation `√variance` taken over
all N rows — exceeds the threshold. -/
theorem detect_outliers_zscore_matches_spec (data : List Vec3) (t : ℚ)
    (ht : 0 ≤ t) :
    (detect_outliers_zscore data t).length = data.length ∧
    ∀ v b, (v, b) ∈ data.zip (detect_outliers_zscore data t) →
      (b = true ↔
        ((t : ℝ) < |(v.x : ℝ) - (colMean (data.map Vec3.x) : ℝ)| /
            Real.sqrt (colVar (data.map Vec3.x) : ℝ) ∨
         (t : ℝ) < |(v.y : ℝ) - (colMean (data.map Vec3.y) : ℝ)| /
            Real.sqrt (colVar (data.map Vec3.y) : ℝ) ∨
         (t : ℝ) < |(v.z : ℝ) - (colMean (data.map Vec3.z) : ℝ)| /
            Real.sqrt (colVar (data.map Vec3.z) : ℝ))) := by
  constructor
  · unfold detect_outliers_zscore
    exact List.length_map _ _
  · intro v b hmem
    obtain ⟨hv, hb⟩ := zip_map_self data
      (fun v => zExceeds v.x (colMean (data.map Vec3.x))
          (colVar (data.map Vec3.x)) t ||
        zExceeds v.y (colMean (data.map Vec3.y)) (colVar (data.map Vec3.y)) t ||
        zExceeds v.z (colMean (data.map Vec3.z)) (colVar (data.map Vec3.z)) t)
      v b hmem
    subst hb
    rw [Bool.or_eq_true, Bool.or_eq_true]
    rw [zExceeds_iff_real _ _ _ _ (colVar_nonneg _) ht
        (fun h => eq_colMean_of_colVar_eq_zero
          (List.mem_map_of_mem Vec3.x hv) h),
      zExceeds_iff_real _ _ _ _ (colVar_nonneg _) ht
        (fun h => eq_colMean_of_colVar_eq_zero
          (List.mem_map_of_mem Vec3.y hv) h),
      zExceeds_iff_real _ _ _ _ (colVar_nonneg _) ht
        (fun h => eq_colMean_of_colVar_eq_zero
          (List.mem_map_of_mem Vec3.z hv) h)]
    tauto

/-! ## Lemmas about `weighted_average` -/

theorem sum_replicate_rat (n : ℕ) (c : ℚ) :
    (List.replicate n c).sum = n * c := by
  rw [List.sum_replicate, nsmul_eq_mul]

theorem zipWith_mul_replicate_left {α : Type} (c : ℚ) (l : List α)
    (g : α → ℚ) :
    List.zipWith (fun w v => w * g v) (List.replicate l.length c) l =
      l.map fun v => c * g v := by
  induction l with
  | nil => rfl
  | cons a tl ih =>
    rw [List.length_cons, List.replicate_succ, List.zipWith_cons_cons,
      List.map_cons, ih]

theorem weighted_average_none_eq_columnMean (data : List Vec3)
    (h : data ≠ []) : weighted_average data none = columnMean data := by
  have hn : (data.length : ℚ) ≠ 0 := by
    have : data.length ≠ 0 := fun h0 => h (List.length_eq_zero.mp h0)
    exact_mod_cast this
  unfold weighted_average columnMean
  simp only [Option.getD_none, sum_replicate_rat, List.map_replicate,
    zipWith_mul_replicate_left, List.sum_map_mul_left, colMean, mul_one]
  simp only [Vec3.mk.injEq]
  refine ⟨?_, ?_, ?_⟩ <;> (field_simp)

theorem weighted_average_smul_weights (data : List Vec3) (w : List ℚ)
    (c : ℚ) (hc : c ≠ 0) :
    weighted_average data (some (w.map fun x => c * x)) =
      weighted_average data (some w) := by
  unfold weighted_average
  simp only [Option.getD_some]
  have hsum : (w.map fun x => c * x).sum = c * w.sum := by
    simpa using List.sum_map_mul_left w id c
  have hnws : (w.map fun x => c * x).map
        (fun x => x / (w.map fun x => c * x).sum) =
      w.map fun x => x / w.sum := by
    rw [hsum, List.map_map]
    apply List.map_congr_left
    intro a _
    show c * a / (c * w.sum) = a / w.sum
    by_cases hw : w.sum = 0
    · simp [hw]
    · field_simp
      ring
  rw [hnws]

/-- Claim C2: for every M×3 matrix with M ≥ 1, `weighted_average` with no
weights (the default, uniform) — equivalently with the explicit uniform weight
vector — returns the arithmetic column-wise mean; and scaling any weight
vector by a positive constant leaves the result unchanged. -/
theorem weighted_average_uniform_and_scaling (data : List Vec3) (w : List ℚ)
    (c : ℚ) (hM : 1 ≤ data.length) (hc : 0 < c) :
    weighted_average data none = columnMean data ∧
    weighted_average data (some (List.replicate data.length 1)) =
      weighted_average data none ∧
    weighted_average data (some (w.map fun x => c * x)) =
      weighted_average data (some w) := by
  have hne : data ≠ [] := by
    intro h0
    rw [h0] at hM
    simp at hM
  exact ⟨weighted_average_none_eq_columnMean data hne, rfl,
    weighted_average_smul_weights data w c hc.ne'⟩

/-- Claim C3: for every N×3 main matrix and reference 3-vector,
`correct_main_data` with factor 0 is the identity, with factor 1 it replaces
every row by the reference vector, and in general each output row is
`main_row + factor × (reference − main_row)`. -/
theorem correct_main_data_blend (main : List Vec3) (ref : Vec3) (f : ℚ) :
    correct_main_data main ref 0 = main ∧
    correct_main_data main ref 1 = main.map (fun _ => ref) ∧
    correct_main_data main ref f = main.map fun v => v + f • (ref - v) := by
  refine ⟨?_, ?_, rfl⟩
  · unfold correct_main_data
    have : ∀ v ∈ main, v + (0 : ℚ) • (ref - v) = v := by
      intro v _
      apply Vec3.ext' <;> simp
    rw [List.map_congr_left this]
    exact List.map_id' main
  · unfold correct_main_data
    apply List.map_congr_left
    intro v _
    apply Vec3.ext' <;> simp

/-! ## Lemmas about the orchestrator -/

theorem pluralValid_length_pos (A : List Vec3) (h : A ≠ []) :
    0 < (pluralValid A).length := by
  unfold pluralValid
  by_cases h0 : (applyNotMask A (detect_outliers_zscore A 3)).length = 0
  · rw [if_pos h0]
    exact List.length_pos.mpr h
  · rw [if_neg h0]
    exact Nat.pos_of_ne_zero h0

theorem processWarnEq (main aux : List Row)
    (h : extractVecs main = [] ∨ extractVecs aux = []) :
    process_and_plot main aux = .warnIncomplete := by
  unfold process_and_plot
  rcases h with h | h <;> rw [h] <;> simp

theorem processSingletonEq (main aux : List Row) (v : Vec3)
    (hmain : extractVecs main ≠ []) (haux : extractVecs aux = [v]) :
    process_and_plot main aux =
      .done false false [v] v (correct_main_data (extractVecs main) v 1) := by
  unfold process_and_plot
  rw [haux]
  rw [if_neg (by simp [List.length_eq_zero, hmain])]
  simp

theorem detect_outliers_zscore_length (A : List Vec3) (t : ℚ) :
    (detect_outliers_zscore A t).length = A.length := by
  unfold detect_outliers_zscore
  exact List.length_map _ _

theorem processPluralEq (main aux : List Row)
    (hmain : extractVecs main ≠ [])
    (haux : 2 ≤ (extractVecs aux).length)
    (hgeo : (extractGeos aux).length = (extractVecs aux).length) :
    process_and_plot main aux =
      .done true true (pluralValid (extractVecs aux))
        (pluralAggregate (extractVecs aux))
        (correct_main_data (extractVecs main)
          (pluralAggregate (extractVecs aux)) 1) := by
  unfold process_and_plot
  rw [if_neg (by
    simp only [not_or, List.length_eq_zero]
    exact ⟨hmain, fun h0 => by rw [h0] at haux; simp at haux⟩)]
  rw [if_neg (by omega), if_neg (by omega)]
  have hsel : selectNotMask? (extractGeos aux)
      (detect_outliers_zscore (extractVecs aux) 3) =
      some (applyNotMask (extractGeos aux)
        (detect_outliers_zscore (extractVecs aux) 3)) := by
    unfold selectNotMask?
    rw [if_pos]
    rw [detect_outliers_zscore_length]
    exact hgeo
  simp only [hsel]

/-! ## Lemmas about constant (replicated) data -/

theorem colMean_replicate (n : ℕ) (a : ℚ) (hn : n ≠ 0) :
    colMean (List.replicate n a) = a := by
  unfold colMean
  rw [sum_replicate_rat, List.length_replicate]
  have : (n : ℚ) ≠ 0 := Nat.cast_ne_zero.mpr hn
  field_simp

theorem colVar_replicate (n : ℕ) (a : ℚ) (hn : n ≠ 0) :
    colVar (List.replicate n a) = 0 := by
  unfold colVar
  rw [colMean_replicate n a hn, List.map_replicate]
  simp [sum_replicate_rat]

theorem zExceeds_self_zero (x t : ℚ) : zExceeds x x 0 t = false := by
  simp [zExceeds]

theorem detect_outliers_zscore_replicate (n : ℕ) (v : Vec3) (t : ℚ) :
    detect_outliers_zscore (List.replicate n v) t = List.replicate n false := by
  unfold detect_outliers_zscore
  rw [List.map_replicate]
  rcases Nat.eq_zero_or_pos n with h0 | hpos
  · subst h0; rfl
  · have hn : n ≠ 0 := hpos.ne'
    rw [List.map_replicate, List.map_replicate, List.map_replicate,
      colMean_replicate _ _ hn, colMean_replicate _ _ hn,
      colMean_replicate _ _ hn, colVar_replicate _ _ hn,
      colVar_replicate _ _ hn, colVar_replicate _ _ hn,
      zExceeds_self_zero, zExceeds_self_zero, zExceeds_self_zero]
    rfl

theorem applyNotMask_replicate_false {α : Type} (l : List α) :
    applyNotMask l (List.replicate l.length false) = l := by
  induction l with
  | nil => rfl
  | cons a tl ih =>
    unfold applyNotMask at ih ⊢
    rw [List.length_cons, List.replicate_succ, List.zip_cons_cons,
      List.filterMap_cons]
    simp only [if_neg Bool.false_ne_true]
    rw [ih]

theorem weighted_average_replicate (n : ℕ) (v : Vec3) (hn : n ≠ 0) :
    weighted_average (List.replicate n v) none = v := by
  have hne : List.replicate n v ≠ [] := by
    intro h0
    have := congrArg List.length h0
    rw [List.length_replicate] at this
    exact hn this
  rw [weighted_average_none_eq_columnMean _ hne]
  unfold columnMean
  rw [List.map_replicate, List.map_replicate, List.map_replicate,
    colMean_replicate _ _ hn, colMean_replicate _ _ hn,
    colMean_replicate _ _ hn]

theorem pluralValid_replicate (n : ℕ) (v : Vec3) (hn : n ≠ 0) :
    pluralValid (List.replicate n v) = List.replicate n v := by
  unfold pluralValid
  rw [detect_outliers_zscore_replicate]
  rw [show List.replicate n false =
      List.replicate (List.replicate n v).length false by
    rw [List.length_replicate]]
  rw [applyNotMask_replicate_false]
  rw [if_neg (by simpa using hn)]

theorem pluralAggregate_replicate (n : ℕ) (v : Vec3) (hn : n ≠ 0) :
    pluralAggregate (List.replicate n v) = v := by
  unfold pluralAggregate
  rw [pluralValid_replicate n v hn, weighted_average_replicate n v hn]

/-! ## Lemmas about row extraction -/

theorem rowVec_isSome (r : Row) : (rowVec r).isSome = vecComplete r := by
  rcases r with ⟨lon, lat, d, e, mx, my, mz⟩
  unfold rowVec vecComplete
  cases mx <;> cases my <;> cases mz <;> rfl

theorem extractVecs_length (df : List Row) :
    (extractVecs df).length = (df.filter vecComplete).length := by
  induction df with
  | nil => rfl
  | cons r tl ih =>
    unfold extractVecs at ih ⊢
    rw [List.filterMap_cons, List.filter_cons]
    cases h : rowVec r with
    | none =>
      have hv : vecComplete r = false := by
        rw [← rowVec_isSome, h]
        rfl
      rw [hv]
      simpa using ih
    | some v =>
      have hv : vecComplete r = true := by
        rw [← rowVec_isSome, h]
        rfl
      rw [hv]
      simpa using ih

theorem correct_main_data_length (L : List Vec3) (μ : Vec3) (f : ℚ) :
    (correct_main_data L μ f).length = L.length := by
  unfold correct_main_data
  exact List.length_map _ _

/-- Claim C4: whenever the count of valid auxiliary rows is exactly 1, the
orchestrator invokes neither the outlier filter nor the weighted aggregator
(both invocation flags are `false`), and the aggregate auxiliary mean it uses
for correction is exactly that single row. -/
theorem process_singleton_bypasses_filter (main aux : List Row) (v : Vec3)
    (hmain : extractVecs main ≠ []) (haux : extractVecs aux = [v]) :
    process_and_plot main aux =
      .done false false [v] v (correct_main_data (extractVecs main) v 1) :=
  processSingletonEq main aux v hmain haux

/-- Claim C5 (amended): whenever the count of valid auxiliary rows is at
least 2 AND the auxiliary geo-complete row count equals its vector-complete
count — without which the line-250 boolean indexing `aux_geo[~outlier_mask]`
raises an uncaught IndexError that kills the run before any aggregation (see
`process_plural_crash_counterexample`) — the orchestrator runs the outlier
filter and the weighted aggregator (both invocation flags are `true`); the
aggregator is applied with uniform weights (`none`) to the unflagged rows, or
to the full unfiltered set when the mask flagged every row, and in either case
to a nonempty matrix. -/
theorem process_plural_filters_then_averages (main aux : List Row)
    (hmain : extractVecs main ≠ []) (haux : 2 ≤ (extractVecs aux).length)
    (hgeo : (extractGeos aux).length = (extractVecs aux).length) :
    process_and_plot main aux =
      .done true true (pluralValid (extractVecs aux))
        (pluralAggregate (extractVecs aux))
        (correct_main_data (extractVecs main)
          (pluralAggregate (extractVecs aux)) 1) ∧
    ((applyNotMask (extractVecs aux)
        (detect_outliers_zscore (extractVecs aux) 3)).length = 0 →
      pluralValid (extractVecs aux) = extractVecs aux) ∧
    ((applyNotMask (extractVecs aux)
        (detect_outliers_zscore (extractVecs aux) 3)).length ≠ 0 →
      pluralValid (extractVecs aux) =
        applyNotMask (extractVecs aux)
          (detect_outliers_zscore (extractVecs aux) 3)) ∧
    pluralAggregate (extractVecs aux) =
      weighted_average (pluralValid (extractVecs aux)) none ∧
    0 < (pluralValid (extractVecs aux)).length := by
  refine ⟨processPluralEq main aux hmain haux hgeo, ?_, ?_, rfl, ?_⟩
  · intro h0
    unfold pluralValid
    rw [if_pos h0]
  · intro h0
    unfold pluralValid
    rw [if_neg h0]
  · apply pluralValid_length_pos
    intro h0
    rw [h0] at haux
    simp at haux

/-- Claim C5 counterexample: an auxiliary table with 2 vector-complete rows,
the second missing its longitude.  The count of valid (vector-complete)
auxiliary rows is 2 and the main set is nonempty, yet the weighted aggregator
is never applied: `aux_geo` has 1 row while the outlier mask has length 2, so
the line-250 indexing raises an uncaught IndexError and the run dies before
`weighted_average` — contrary to the claim, which asserts the aggregator runs
whenever the valid auxiliary count is at least 2. -/
theorem process_plural_crash_counterexample :
    2 ≤ (extractVecs
        [⟨some 0, some 0, some 0, some 0, some 0, some 0, some 10⟩,
         ⟨none, some 0, some 0, some 0, some 0, some 0, some 12⟩]).length ∧
    extractVecs [⟨some 0, some 0, some 0, some 0, some 5, some 6, some 7⟩]
      ≠ [] ∧
    process_and_plot
        [⟨some 0, some 0, some 0, some 0, some 5, some 6, some 7⟩]
        [⟨some 0, some 0, some 0, some 0, some 0, some 0, some 10⟩,
         ⟨none, some 0, some 0, some 0, some 0, some 0, some 12⟩] =
      .crashIndexError :=
  ⟨by decide, by decide, by decide⟩

/-- Claim C8: if the main dataset has no row with a complete magnetic vector,
or the auxiliary dataset has none, the run aborts with the WARN diagnostic of
source lines 222–225 (`[WARN] 数据不完整，无法计算。`) before any correction is
computed, and the plot is not updated (`warnIncomplete` returns before the
figure is touched). -/
theorem process_aborts_on_empty_vectors (main aux : List Row)
    (h : extractVecs main = [] ∨ extractVecs aux = []) :
    process_and_plot main aux = .warnIncomplete :=
  processWarnEq main aux h

theorem processDoneInv (main aux : List Row) {cd ca : Bool} {V : List Vec3}
    {μ : Vec3} {corr : List Vec3}
    (h : process_and_plot main aux = .done cd ca V μ corr) :
    corr = correct_main_data (extractVecs main) μ 1 := by
  unfold process_and_plot at h
  by_cases h1 : (extractVecs main).length = 0 ∨ (extractVecs aux).length = 0
  · rw [if_pos h1] at h
    exact absurd h (by simp)
  · rw [if_neg h1] at h
    by_cases h2 : (extractVecs aux).length = 0
    · rw [if_pos h2] at h
      exact absurd h (by simp)
    · rw [if_neg h2] at h
      by_cases h3 : (extractVecs aux).length = 1
      · rw [if_pos h3] at h
        rw [ProcessResult.done.injEq] at h
        obtain ⟨-, -, -, hμ, hcorr⟩ := h
        rw [← hcorr, ← hμ]
      · rw [if_neg h3] at h
        cases hsel : selectNotMask? (extractGeos aux)
            (detect_outliers_zscore (extractVecs aux) 3) with
        | none =>
          simp only [hsel] at h
          exact ProcessResult.noConfusion h
        | some g =>
          simp only [hsel] at h
          rw [ProcessResult.done.injEq] at h
          obtain ⟨-, -, -, hμ, hcorr⟩ := h
          rw [← hcorr, ← hμ]

/-- Claim C6 (amended): whenever a run completes, its correction result is
`correct_main_data` applied to the main dataset's complete-magnetic-vector
rows with the computed auxiliary mean, so its length equals the count of main
rows with a complete magnetic vector — geo-position completeness is not
required (and the length is not tied to the auxiliary dataset). -/
theorem corrected_length_eq_main_valid (main aux : List Row)
    (cd ca : Bool) (V : List Vec3) (μ : Vec3) (corr : List Vec3)
    (h : process_and_plot main aux = .done cd ca V μ corr) :
    corr = correct_main_data (extractVecs main) μ 1 ∧
    corr.length = (main.filter vecComplete).length := by
  have hc : corr = correct_main_data (extractVecs main) μ 1 :=
    processDoneInv main aux h
  refine ⟨hc, ?_⟩
  rw [hc, correct_main_data_length, extractVecs_length]

/-- Claim C6 counterexample: a main table whose single row has a complete
magnetic vector but an incomplete geo-position (missing longitude).  The run
completes and the correction result has length 1, while the count of main rows
with a complete geo-position AND a complete magnetic vector is 0 — so the
correction-result length does not equal the claim's valid-row count. -/
theorem corrected_length_counterexample :
    process_and_plot
        [⟨none, some 0, some 0, some 0, some 1, some 2, some 3⟩]
        [⟨some 0, some 0, some 0, some 0, some 1, some 1, some 1⟩] =
      .done false false [⟨1, 1, 1⟩] ⟨1, 1, 1⟩ [⟨1, 1, 1⟩] ∧
    ¬ (([(⟨1, 1, 1⟩ : Vec3)] : List Vec3).length =
        (([⟨none, some 0, some 0, some 0, some 1, some 2, some 3⟩] :
            List Row).filter fun r => geoComplete r && vecComplete r).length)
    := by
  constructor
  · rw [processSingletonEq _ _ ⟨1, 1, 1⟩ (by decide) (by decide)]
    have hm : extractVecs
        [⟨none, some 0, some 0, some 0, some 1, some 2, some 3⟩] =
        [⟨1, 2, 3⟩] := by decide
    rw [hm]
    have hc : correct_main_data [⟨1, 2, 3⟩] ⟨1, 1, 1⟩ 1 = [⟨1, 1, 1⟩] := by
      unfold correct_main_data
      rw [List.map_cons, List.map_nil]
      congr 1
      apply Vec3.ext' <;> norm_num
    rw [hc]
  · decide

/-- Claim C9 (amended): a matrix of `n` identical rows (every column
constant) produces an all-false outlier mask for any threshold `t > 0`;
consequently, for an auxiliary set of `n ≥ 2` identical valid rows whose
geo-complete row count equals its vector-complete count — without which the
line-250 indexing raises an uncaught IndexError before the mean is computed
(see `constant_rows_crash_counterexample`) — the orchestrator flags no row and
the aggregate auxiliary mean equals that common row value. -/
theorem constant_rows_all_false_mask (n : ℕ) (v : Vec3) (t : ℚ)
    (main aux : List Row) (ht : 0 < t) (hn : 2 ≤ n)
    (haux : extractVecs aux = List.replicate n v)
    (hmain : extractVecs main ≠ [])
    (hgeo : (extractGeos aux).length = (extractVecs aux).length) :
    detect_outliers_zscore (List.replicate n v) t = List.replicate n false ∧
    process_and_plot main aux =
      .done true true (List.replicate n v) v
        (correct_main_data (extractVecs main) v 1) := by
  have hn0 : n ≠ 0 := by omega
  refine ⟨detect_outliers_zscore_replicate n v t, ?_⟩
  have h2 : 2 ≤ (extractVecs aux).length := by
    rw [haux, List.length_replicate]
    exact hn
  rw [processPluralEq main aux hmain h2 hgeo, haux,
    pluralValid_replicate n v hn0, pluralAggregate_replicate n v hn0]

/-- Claim C9 counterexample: two literally identical auxiliary rows, each with
the complete magnetic vector (1,1,1) but a missing longitude.  They are 2
identical valid rows for the aggregation (the vector columns are complete),
yet no aggregate mean is ever computed: `aux_geo` is empty while the outlier
mask has length 2, so the line-250 indexing raises an uncaught IndexError and
the run dies before `weighted_average` — contrary to the claim's consequent
that the aggregate mean equals the common row value. -/
theorem constant_rows_crash_counterexample :
    extractVecs
        [⟨none, some 0, some 0, some 0, some 1, some 1, some 1⟩,
         ⟨none, some 0, some 0, some 0, some 1, some 1, some 1⟩] =
      List.replicate 2 ⟨1, 1, 1⟩ ∧
    process_and_plot
        [⟨some 0, some 0, some 0, some 0, some 5, some 6, some 7⟩]
        [⟨none, some 0, some 0, some 0, some 1, some 1, some 1⟩,
         ⟨none, some 0, some 0, some 0, some 1, some 1, some 1⟩] =
      .crashIndexError :=
  ⟨by decide, by decide⟩

/-- Claim C10: on a single-row matrix the weighted aggregator with default
uniform weights returns exactly that row, and the orchestrator's plural-path
aggregation (outlier filter, all-flagged fallback, uniform weighted average)
applied to that same one-row input also returns that row — so the singleton
special case computes the same aggregate the general path would. -/
theorem singleton_path_agrees_with_plural (v : Vec3) :
    weighted_average [v] none = v ∧ pluralAggregate [v] = v := by
  have h1 := weighted_average_replicate 1 v one_ne_zero
  have h2 := pluralAggregate_replicate 1 v one_ne_zero
  rw [List.replicate_one] at h1 h2
  exact ⟨h1, h2⟩

/-- Claim C7: loading a workbook in which any of the 7 required columns is
absent from either sheet returns a schema error naming a missing column (and
the sheet it is missing from), and leaves both in-memory tables exactly as
they were — the returned state is the prior state, with no partial
replacement.  The model performs no numeric coercion at all during loading
(cells stay raw strings; `pd.to_numeric` belongs to `table_to_dataframe`,
which a failed load never reaches), so the check precedes any coercion. -/
theorem load_excel_schema_error (st : AppState) (m : Table)
    (a? : Option Table)
    (h : ∃ c ∈ FIELDS, c ∉ m.headers ∨ c ∉ (a?.getD m).headers) :
    ∃ name c, c ∈ FIELDS ∧
      load_excel st m a? = (.schemaError name c, st) ∧
      ((name = "主数据" ∧ c ∉ m.headers) ∨
       (name = "辅助数据" ∧ c ∉ (a?.getD m).headers)) := by
  unfold load_excel
  cases h1 : FIELDS.find? fun c => decide (c ∉ m.headers) with
  | some c =>
    refine ⟨"主数据", c, List.mem_of_find?_eq_some h1, rfl, Or.inl ⟨rfl, ?_⟩⟩
    have := List.find?_some h1
    simpa using this
  | none =>
    have hmain : ∀ c ∈ FIELDS, c ∈ m.headers := by
      intro c hc
      have := List.find?_eq_none.mp h1 c hc
      simpa using this
    cases h2 : FIELDS.find? fun c => decide (c ∉ (a?.getD m).headers) with
    | some c =>
      refine ⟨"辅助数据", c, List.mem_of_find?_eq_some h2, ?_,
        Or.inr ⟨rfl, ?_⟩⟩
      · show (match FIELDS.find? fun c =>
              decide (c ∉ (a?.getD m).headers) with
          | some c => (LoadResult.schemaError "辅助数据" c, st)
          | none => (LoadResult.ok,
              ⟨selectColumns m, selectColumns (a?.getD m)⟩)) =
          (LoadResult.schemaError "辅助数据" c, st)
        rw [h2]
      · have := List.find?_some h2
        simpa using this
    | none =>
      exfalso
      obtain ⟨c, hc, hmiss⟩ := h
      rcases hmiss with hmiss | hmiss
      · exact hmiss (hmain c hc)
      · have := List.find?_eq_none.mp h2 c hc
        simp at this
        exact hmiss this

/-! ## Concrete witnesses -/

/-- Witness for C1 at the concrete 3×3 matrix
`[[0,0,0],[0,0,0],[0,0,100]]` with the default threshold 3. -/
theorem detect_outliers_zscore_matches_spec_witness :
    (0 : ℚ) ≤ 3 ∧
    (detect_outliers_zscore [⟨0, 0, 0⟩, ⟨0, 0, 0⟩, ⟨0, 0, 100⟩] 3).length = 3 :=
  ⟨by norm_num,
    (detect_outliers_zscore_matches_spec [⟨0, 0, 0⟩, ⟨0, 0, 0⟩, ⟨0, 0, 100⟩] 3
      (by norm_num)).1⟩

/-- Witness for C2 at the 2×3 matrix `[[1,2,3],[3,4,5]]`, weight vector
`[1,2]` and scale constant 2. -/
theorem weighted_average_uniform_and_scaling_witness :
    1 ≤ ([⟨1, 2, 3⟩, ⟨3, 4, 5⟩] : List Vec3).length ∧ (0 : ℚ) < 2 ∧
    weighted_average [⟨1, 2, 3⟩, ⟨3, 4, 5⟩] none =
      columnMean [⟨1, 2, 3⟩, ⟨3, 4, 5⟩] ∧
    weighted_average [⟨1, 2, 3⟩, ⟨3, 4, 5⟩]
        (some (([1, 2] : List ℚ).map fun x => 2 * x)) =
      weighted_average [⟨1, 2, 3⟩, ⟨3, 4, 5⟩] (some [1, 2]) :=
  ⟨by decide, by decide,
    (weighted_average_uniform_and_scaling [⟨1, 2, 3⟩, ⟨3, 4, 5⟩] [1, 2] 2
      (by decide) (by decide)).1,
    (weighted_average_uniform_and_scaling [⟨1, 2, 3⟩, ⟨3, 4, 5⟩] [1, 2] 2
      (by decide) (by decide)).2.2⟩

/-- Witness for C4: one complete main row and exactly one complete auxiliary
row. -/
theorem process_singleton_bypasses_filter_witness :
    extractVecs [⟨some 0, some 0, some 0, some 0, some 5, some 6, some 7⟩]
      ≠ [] ∧
    extractVecs [⟨some 1, some 1, some 1, some 1, some 1, some 2, some 3⟩]
      = [⟨1, 2, 3⟩] ∧
    process_and_plot
        [⟨some 0, some 0, some 0, some 0, some 5, some 6, some 7⟩]
        [⟨some 1, some 1, some 1, some 1, some 1, some 2, some 3⟩] =
      .done false false [⟨1, 2, 3⟩] ⟨1, 2, 3⟩
        (correct_main_data
          (extractVecs
            [⟨some 0, some 0, some 0, some 0, some 5, some 6, some 7⟩])
          ⟨1, 2, 3⟩ 1) :=
  ⟨by decide, by decide,
    process_singleton_bypasses_filter _ _ ⟨1, 2, 3⟩ (by decide) (by decide)⟩

/-- Witness for C5: one complete main row and two fully complete auxiliary
rows (so the geo-complete and vector-complete counts agree). -/
theorem process_plural_filters_then_averages_witness :
    extractVecs [⟨some 0, some 0, some 0, some 0, some 5, some 6, some 7⟩]
      ≠ [] ∧
    2 ≤ (extractVecs
        [⟨some 0, some 0, some 0, some 0, some 0, some 0, some 10⟩,
         ⟨some 0, some 0, some 0, some 0, some 0, some 0, some 12⟩]).length ∧
    (extractGeos
        [⟨some 0, some 0, some 0, some 0, some 0, some 0, some 10⟩,
         ⟨some 0, some 0, some 0, some 0, some 0, some 0, some 12⟩]).length =
      (extractVecs
        [⟨some 0, some 0, some 0, some 0, some 0, some 0, some 10⟩,
         ⟨some 0, some 0, some 0, some 0, some 0, some 0, some 12⟩]).length ∧
    process_and_plot
        [⟨some 0, some 0, some 0, some 0, some 5, some 6, some 7⟩]
        [⟨some 0, some 0, some 0, some 0, some 0, some 0, some 10⟩,
         ⟨some 0, some 0, some 0, some 0, some 0, some 0, some 12⟩] =
      .done true true
        (pluralValid (extractVecs
          [⟨some 0, some 0, some 0, some 0, some 0, some 0, some 10⟩,
           ⟨some 0, some 0, some 0, some 0, some 0, some 0, some 12⟩]))
        (pluralAggregate (extractVecs
          [⟨some 0, some 0, some 0, some 0, some 0, some 0, some 10⟩,
           ⟨some 0, some 0, some 0, some 0, some 0, some 0, some 12⟩]))
        (correct_main_data
          (extractVecs
            [⟨some 0, some 0, some 0, some 0, some 5, some 6, some 7⟩])
          (pluralAggregate (extractVecs
            [⟨some 0, some 0, some 0, some 0, some 0, some 0, some 10⟩,
             ⟨some 0, some 0, some 0, some 0, some 0, some 0, some 12⟩])) 1)
    :=
  ⟨by decide, by decide, by decide,
    (process_plural_filters_then_averages
      [⟨some 0, some 0, some 0, some 0, some 5, some 6, some 7⟩]
      [⟨some 0, some 0, some 0, some 0, some 0, some 0, some 10⟩,
       ⟨some 0, some 0, some 0, some 0, some 0, some 0, some 12⟩]
      (by decide) (by decide) (by decide)).1⟩

/-- Witness for C6 (amended): main row with complete vector, auxiliary row
complete; the run completes and the correction length is the main
complete-vector count, 1. -/
theorem corrected_length_eq_main_valid_witness :
    process_and_plot
        [⟨some 0, some 0, some 0, some 0, some 1, some 2, some 3⟩]
        [⟨some 0, some 0, some 0, some 0, some 1, some 1, some 1⟩] =
      .done false false [⟨1, 1, 1⟩] ⟨1, 1, 1⟩
        (correct_main_data
          (extractVecs
            [⟨some 0, some 0, some 0, some 0, some 1, some 2, some 3⟩])
          ⟨1, 1, 1⟩ 1) ∧
    (correct_main_data
        (extractVecs
          [⟨some 0, some 0, some 0, some 0, some 1, some 2, some 3⟩])
        ⟨1, 1, 1⟩ 1).length =
      (([⟨some 0, some 0, some 0, some 0, some 1, some 2, some 3⟩] :
          List Row).filter vecComplete).length := by
  have h : process_and_plot
      [⟨some 0, some 0, some 0, some 0, some 1, some 2, some 3⟩]
      [⟨some 0, some 0, some 0, some 0, some 1, some 1, some 1⟩] =
      .done false false [⟨1, 1, 1⟩] ⟨1, 1, 1⟩
        (correct_main_data
          (extractVecs
            [⟨some 0, some 0, some 0, some 0, some 1, some 2, some 3⟩])
          ⟨1, 1, 1⟩ 1) :=
    processSingletonEq _ _ ⟨1, 1, 1⟩ (by decide) (by decide)
  exact ⟨h,
    (corrected_length_eq_main_valid
      [⟨some 0, some 0, some 0, some 0, some 1, some 2, some 3⟩]
      [⟨some 0, some 0, some 0, some 0, some 1, some 1, some 1⟩]
      false false [⟨1, 1, 1⟩] ⟨1, 1, 1⟩ _ h).2⟩

/-- Witness for C7: a main sheet containing only the longitude column; the
load fails naming a missing column and returns the prior state unchanged. -/
theorem load_excel_schema_error_witness :
    (∃ c ∈ FIELDS, c ∉ (["经度(°)"] : List String) ∨
      c ∉ ((none : Option Table).getD ⟨["经度(°)"], [["1"]]⟩).headers) ∧
    ∃ name c, c ∈ FIELDS ∧
      load_excel ⟨⟨["a"], []⟩, ⟨["b"], []⟩⟩ ⟨["经度(°)"], [["1"]]⟩ none =
        (.schemaError name c, ⟨⟨["a"], []⟩, ⟨["b"], []⟩⟩) ∧
      ((name = "主数据" ∧ c ∉ (⟨["经度(°)"], [["1"]]⟩ : Table).headers) ∨
       (name = "辅助数据" ∧
        c ∉ ((none : Option Table).getD ⟨["经度(°)"], [["1"]]⟩).headers)) :=
  ⟨by decide,
    load_excel_schema_error ⟨⟨["a"], []⟩, ⟨["b"], []⟩⟩ ⟨["经度(°)"], [["1"]]⟩
      none (by decide)⟩

/-- Witness for C8: the main table's only row is missing its X-component, so
its complete-vector set is empty and the run aborts with the WARN. -/
theorem process_aborts_on_empty_vectors_witness :
    (extractVecs [⟨some 0, some 0, some 0, some 0, none, some 1, some 1⟩]
        = [] ∨
      extractVecs [⟨some 1, some 1, some 1, some 1, some 1, some 1, some 1⟩]
        = []) ∧
    process_and_plot
        [⟨some 0, some 0, some 0, some 0, none, some 1, some 1⟩]
        [⟨some 1, some 1, some 1, some 1, some 1, some 1, some 1⟩] =
      .warnIncomplete :=
  ⟨by decide, process_aborts_on_empty_vectors _ _ (by decide)⟩

/-- Witness for C9: two identical fully complete auxiliary rows `(1,1,1)`
(geo-complete count = vector-complete count = 2) and one complete main row,
threshold 3. -/
theorem constant_rows_all_false_mask_witness :
    (0 : ℚ) < 3 ∧ 2 ≤ 2 ∧
    extractVecs
        [⟨some 0, some 0, some 0, some 0, some 1, some 1, some 1⟩,
         ⟨some 0, some 0, some 0, some 0, some 1, some 1, some 1⟩] =
      List.replicate 2 ⟨1, 1, 1⟩ ∧
    (extractGeos
        [⟨some 0, some 0, some 0, some 0, some 1, some 1, some 1⟩,
         ⟨some 0, some 0, some 0, some 0, some 1, some 1, some 1⟩]).length =
      (extractVecs
        [⟨some 0, some 0, some 0, some 0, some 1, some 1, some 1⟩,
         ⟨some 0, some 0, some 0, some 0, some 1, some 1, some 1⟩]).length ∧
    detect_outliers_zscore (List.replicate 2 ⟨1, 1, 1⟩) 3 =
      List.replicate 2 false ∧
    process_and_plot
        [⟨some 0, some 0, some 0, some 0, some 5, some 6, some 7⟩]
        [⟨some 0, some 0, some 0, some 0, some 1, some 1, some 1⟩,
         ⟨some 0, some 0, some 0, some 0, some 1, some 1, some 1⟩] =
      .done true true (List.replicate 2 ⟨1, 1, 1⟩) ⟨1, 1, 1⟩
        (correct_main_data
          (extractVecs
            [⟨some 0, some 0, some 0, some 0, some 5, some 6, some 7⟩])
          ⟨1, 1, 1⟩ 1) :=
  ⟨by decide, by decide, by decide, by decide,
    (constant_rows_all_false_mask 2 ⟨1, 1, 1⟩ 3
      [⟨some 0, some 0, some 0, some 0, some 5, some 6, some 7⟩]
      [⟨some 0, some 0, some 0, some 0, some 1, some 1, some 1⟩,
       ⟨some 0, some 0, some 0, some 0, some 1, some 1, some 1⟩]
      (by decide) (by decide) (by decide) (by decide) (by decide)).1,
    (constant_rows_all_false_mask 2 ⟨1, 1, 1⟩ 3
      [⟨some 0, some 0, some 0, some 0, some 5, some 6, some 7⟩]
      [⟨some 0, some 0, some 0, some 0, some 1, some 1, some 1⟩,
       ⟨some 0, some 0, some 0, some 0, some 1, some 1, some 1⟩]
      (by decide) (by decide) (by decide) (by decide) (by decide)).2⟩
